import Mathlib

/-!
Shallow embedding of the `tnkb` Python package (plate validation, region
registry, lookup orchestration with local fallback) and verification of
its specification claims.

Strings are modelled as Lean `String` / `List Char`; Python `str.upper`,
`str.split` and the plate regex are modelled over the ASCII range, which
covers every character class the code's own pattern accepts.
-/

namespace TNKB

/-- ASCII whitespace, as recognized by Python str.split and the regex class \s:
space, tab, newline, carriage return, vertical tab, form feed. -/
def isSp (c : Char) : Bool :=
  c.toNat = 32 || c.toNat = 9 || c.toNat = 10 || c.toNat = 13 ||
  c.toNat = 11 || c.toNat = 12

def notSp (c : Char) : Bool := !(isSp c)

theorem length_dropWhile_le' (p : α → Bool) (l : List α) :
    (l.dropWhile p).length ≤ l.length := by
  induction l with
  | nil => simp [List.dropWhile]
  | cons x xs ih =>
    simp only [List.dropWhile_cons]
    split
    · exact Nat.le_succ_of_le ih
    · exact Nat.le_refl _

/-- Uppercase ASCII letter, the regex class [A-Z]. -/
def isUpperAZ (c : Char) : Bool := 65 ≤ c.toNat && c.toNat ≤ 90

/-- ASCII decimal digit, the regex class \d restricted to ASCII. -/
def isDigitC (c : Char) : Bool := 48 ≤ c.toNat && c.toNat ≤ 57

/-- Python str.upper on the ASCII range: core Char.toUpper maps a..z to A..Z
and leaves every other character unchanged. -/
def pyUpperL (cs : List Char) : List Char := cs.map Char.toUpper

def pyUpper (s : String) : String := ⟨pyUpperL s.data⟩

/-- The words of a string: maximal runs of non-whitespace characters,
as computed by Python str.split() with no argument. -/
def wordsOf : List Char → List (List Char)
  | [] => []
  | c :: cs =>
    if isSp c then wordsOf cs
    else (c :: cs.takeWhile notSp) :: wordsOf (cs.dropWhile notSp)
termination_by cs => cs.length
decreasing_by
  all_goals simp only [List.length_cons]
  · omega
  · exact Nat.lt_succ_of_le (length_dropWhile_le' notSp cs)

/-- Fuel-indexed version of wordsOf; agrees with it whenever the fuel is at
least the length of the string, and reduces by structural recursion. -/
def wordsOfF : Nat → List Char → List (List Char)
  | _, [] => []
  | 0, _ :: _ => []
  | fuel + 1, c :: cs =>
    if isSp c then wordsOfF fuel cs
    else (c :: cs.takeWhile notSp) :: wordsOfF fuel (cs.dropWhile notSp)

/-- Python " ".join on a list of words. -/
def joinWords : List (List Char) → List Char
  | [] => []
  | [w] => w
  | w :: ws => w ++ ' ' :: joinWords ws

/-- Python " ".join(s.split()): collapse whitespace runs to single spaces and
trim the ends. -/
def pyCollapseL (cs : List Char) : List Char := joinWords (wordsOfF cs.length cs)

def pyCollapse (s : String) : String := ⟨pyCollapseL s.data⟩

/-- Consume one optional whitespace character: the regex item \s? . -/
def optSp : List Char → List Char
  | [] => []
  | c :: cs => if isSp c then cs else c :: cs

/-- Anchored match of the plate regex
^([A-Z]{1,2})\s?(\d{1,4})\s?([A-Z]{1,3})$ against a whole string,
returning the three capture groups.  Because the character classes
[A-Z], \s and \d are pairwise disjoint, the backtracking regex engine
accepts exactly the maximal-munch parse implemented here. -/
def plateMatchCore (cs : List Char) : Option (List Char × List Char × List Char) :=
  let L := cs.takeWhile isUpperAZ
  let r1 := cs.dropWhile isUpperAZ
  if L.length = 0 || decide (2 < L.length) then none else
  let r2 := optSp r1
  let D := r2.takeWhile isDigitC
  let r3 := r2.dropWhile isDigitC
  if D.length = 0 || decide (4 < D.length) then none else
  let r4 := optSp r3
  let S := r4.takeWhile isUpperAZ
  let r5 := r4.dropWhile isUpperAZ
  if S.length = 0 || decide (3 < S.length) || !r5.isEmpty then none
  else some (L, D, S)

/-- Full Python re.match semantics for the anchored plate regex: a dollar
anchor also matches just before a single trailing newline. -/
def plateMatch (cs : List Char) : Option (List Char × List Char × List Char) :=
  match plateMatchCore cs with
  | some g => some g
  | none =>
    match cs.getLast? with
    | some c => if c.toNat = 10 then plateMatchCore cs.dropLast else none
    | none => none

/-- Exception hierarchy of tnkb.exceptions: APIError and its subclasses
NetworkError and TimeoutError. -/
inductive ApiErr where
  | apiError (msg : String)
  | networkError (msg : String)
  | timeoutError (msg : String)
deriving DecidableEq, Repr

/-- TNKBError and its direct subclasses.  APIError raised by the gateway is
embedded through the api constructor; InvalidPlateError and ValidationError
are the remaining leaves. -/
inductive TNKBErr where
  | invalidPlate (msg : String)
  | api (e : ApiErr)
  | validation (msg : String)
deriving DecidableEq, Repr

/-- Python str(e): the message the exception was constructed with. -/
def errMsg : TNKBErr → String
  | .invalidPlate m => m
  | .api (.apiError m) => m
  | .api (.networkError m) => m
  | .api (.timeoutError m) => m
  | .validation m => m

/-- A Python dict with string keys and string values, as an association
list; lookups return the first matching key. -/
abbrev PyDict := List (String × String)

/-- Python d.get(k, dflt). -/
def dictGet (d : PyDict) (k dflt : String) : String :=
  match d.find? (fun kv => kv.fst == k) with
  | some kv => kv.snd
  | none => dflt

/-- A record of the REGION_CODES table in tnkb.models. -/
structure RegionRec where
  name : String
  province : String
deriving DecidableEq, Repr

/-- The REGION_CODES mapping of tnkb.models, in source order. -/
def REGION_CODES : List (String × RegionRec) := [
  ("A", ⟨"DKI Jakarta", "Jakarta"⟩),
  ("B", ⟨"Jawa Barat", "West Java"⟩),
  ("C", ⟨"Jawa Tengah", "Central Java"⟩),
  ("D", ⟨"Bandung", "West Java"⟩),
  ("E", ⟨"Pekalongan", "Central Java"⟩),
  ("F", ⟨"Purwokerto", "Central Java"⟩),
  ("G", ⟨"Yogyakarta", "Yogyakarta"⟩),
  ("H", ⟨"Surabaya", "East Java"⟩),
  ("K", ⟨"Semarang", "Central Java"⟩),
  ("L", ⟨"Surabaya", "East Java"⟩),
  ("M", ⟨"Madura", "East Java"⟩),
  ("N", ⟨"Malang", "East Java"⟩),
  ("P", ⟨"Banyumas", "Central Java"⟩),
  ("R", ⟨"Pati", "Central Java"⟩),
  ("S", ⟨"Karanganyar", "Central Java"⟩),
  ("T", ⟨"Sidoarjo", "East Java"⟩),
  ("U", ⟨"Tegal", "Central Java"⟩),
  ("W", ⟨"Mataram", "West Nusa Tenggara"⟩),
  ("AA", ⟨"Medan", "North Sumatra"⟩),
  ("AB", ⟨"Padang", "West Sumatra"⟩),
  ("AD", ⟨"Aceh", "Aceh"⟩),
  ("AE", ⟨"Pekanbaru", "Riau"⟩),
  ("AG", ⟨"Jambi", "Jambi"⟩),
  ("BA", ⟨"Bengkulu", "Bengkulu"⟩),
  ("BB", ⟨"Lampung", "Lampung"⟩),
  ("BC", ⟨"Palembang", "South Sumatra"⟩),
  ("BD", ⟨"Pangkal Pinang", "Bangka Belitung"⟩),
  ("BE", ⟨"Bandar Lampung", "Lampung"⟩),
  ("BK", ⟨"Batam", "Riau Islands"⟩),
  ("BM", ⟨"Banjarmasin", "South Kalimantan"⟩),
  ("BN", ⟨"Balikpapan", "East Kalimantan"⟩),
  ("BP", ⟨"Pontianak", "West Kalimantan"⟩),
  ("BR", ⟨"Samarinda", "East Kalimantan"⟩),
  ("BS", ⟨"Palangka Raya", "Central Kalimantan"⟩),
  ("BT", ⟨"Banjarmasin", "South Kalimantan"⟩),
  ("CC", ⟨"Manado", "North Sulawesi"⟩),
  ("CD", ⟨"Gorontalo", "Gorontalo"⟩),
  ("CT", ⟨"Palu", "Central Sulawesi"⟩),
  ("DA", ⟨"Makassar", "South Sulawesi"⟩),
  ("DB", ⟨"Pare-Pare", "South Sulawesi"⟩),
  ("DC", ⟨"Kendari", "Southeast Sulawesi"⟩),
  ("DD", ⟨"Baubau", "Southeast Sulawesi"⟩),
  ("DE", ⟨"Ambon", "Maluku"⟩),
  ("EB", ⟨"Manado", "North Sulawesi"⟩),
  ("ED", ⟨"Denpasar", "Bali"⟩),
  ("EE", ⟨"Mataram", "West Nusa Tenggara"⟩),
  ("EF", ⟨"Kupang", "East Nusa Tenggara"⟩),
  ("KB", ⟨"Jayapura", "Papua"⟩),
  ("PA", ⟨"Pontianak", "West Kalimantan"⟩)]

/-- Python REGION_CODES.get(code) / membership lookup. -/
def regionLookup (code : String) : Option RegionRec :=
  (REGION_CODES.find? (fun kv => kv.fst == code)).map (fun kv => kv.snd)

/-- The VehicleInfo dataclass of tnkb.models.  The created_at wall-clock
field is not modelled (real time); details is the free-form dict payload. -/
structure VehicleInfo where
  plate_number : String
  region_code : String
  region_name : String
  vehicle_type : String
  is_valid : Bool
  details : PyDict
deriving DecidableEq, Repr

/-- TNKBClient._validate_plate_format: raise InvalidPlateError when the
anchored plate regex does not match. -/
def validatePlateFormat (s : String) : Except TNKBErr Unit :=
  match plateMatch s.data with
  | some _ => Except.ok ()
  | none => Except.error (.invalidPlate
      ("Invalid plate format: " ++ s ++
       ". Expected format: [A-Z] [1-4 DIGITS] [A-Z] (e.g., B 1234 ABC)"))

/-- TNKBClient._normalize_plate: reject the empty string, uppercase and
collapse whitespace, then validate the result against the pattern. -/
def normalizePlate (s : String) : Except TNKBErr String :=
  if s = "" then Except.error (.invalidPlate "Plate number cannot be empty")
  else
    let normalized := pyCollapse (pyUpper s)
    match validatePlateFormat normalized with
    | Except.ok _ => Except.ok normalized
    | Except.error e => Except.error e

/-- TNKBClient._parse_plate: match the pattern and return the three groups. -/
def parsePlate (s : String) : Except TNKBErr (String × String × String) :=
  match plateMatch s.data with
  | some (L, D, S) => Except.ok (⟨L⟩, ⟨D⟩, ⟨S⟩)
  | none => Except.error (.invalidPlate ("Cannot parse plate: " ++ s))

/-- TNKBClient.validate_plate: call _validate_plate_format on the raw input,
return true on success; only InvalidPlateError is caught and turned into
false, any other exception would propagate. -/
def validate_plate (s : String) : Except TNKBErr Bool :=
  match validatePlateFormat s with
  | Except.ok _ => Except.ok true
  | Except.error (.invalidPlate _) => Except.ok false
  | Except.error e => Except.error e

/-- TNKBClient.get_region_info: uppercase the code, then dictionary lookup,
returning None when absent. -/
def get_region_info (code : String) : Option RegionRec :=
  regionLookup (pyUpper code)

/-- Outcome of the underlying HTTP request made by _call_api: a transport
failure, or a response whose body exposes a success flag, an optional
message and a data payload. -/
inductive Transport where
  | timeout
  | connError (msg : String)
  | reqError (msg : String)
  | jsonError (msg : String)
  | body (success : Bool) (message : Option String) (payload : PyDict)
deriving DecidableEq, Repr

/-- TNKBClient._call_api: map each transport outcome to the typed error
hierarchy, or extract the data payload of a successful response.  Every
failure branch raises APIError or one of its subclasses. -/
def callApi (t : Transport) (timeoutSecs : Nat) : Except ApiErr PyDict :=
  match t with
  | .timeout =>
      Except.error (.timeoutError
        ("API request timeout after " ++ toString timeoutSecs ++ "s"))
  | .connError m => Except.error (.networkError ("Network connection error: " ++ m))
  | .reqError m => Except.error (.apiError ("API request failed: " ++ m))
  | .jsonError m => Except.error (.apiError ("Invalid API response: " ++ m))
  | .body ok msg payload =>
      if ok then Except.ok payload
      else Except.error (.apiError ("API error: " ++ msg.getD "Unknown error"))

/-- TNKBClient._build_vehicle_info: region code is the uppercased payload
field (empty when missing), region name resolved from REGION_CODES with
default Unknown, vehicle type from the payload with default Unknown. -/
def buildVehicleInfo (api_response : PyDict) (plate_number : String) : VehicleInfo :=
  let region_code := pyUpper (dictGet api_response "region_code" "")
  let region_info := regionLookup region_code
  { plate_number := plate_number
    region_code := region_code
    region_name := (region_info.map (fun r => r.name)).getD "Unknown"
    vehicle_type := dictGet api_response "vehicle_type" "Unknown"
    is_valid := true
    details := api_response }

/-- TNKBClient._parse_locally: build the fallback result from the locally
parsed region code and digits, defaulting the region name to
Unknown Region and the vehicle type to Car. -/
def parseLocally (plate_number region_code digits : String) : VehicleInfo :=
  let rc := pyUpper region_code
  let region_info := regionLookup rc
  { plate_number := plate_number
    region_code := rc
    region_name := (region_info.map (fun r => r.name)).getD "Unknown Region"
    vehicle_type := "Car"
    is_valid := true
    details := [("source", "local_parsing"), ("region_code", rc),
                ("digits", digits), ("note", "Parsed locally without API")] }

/-- TNKBClient._create_invalid_vehicle. -/
def createInvalidVehicle (plate err : String) : VehicleInfo :=
  { plate_number := plate
    region_code := ""
    region_name := "Unknown"
    vehicle_type := "Unknown"
    is_valid := false
    details := [("error", err)] }

/-- TNKBClient.check_plate: normalize, parse, try the API, and on APIError
(or any subclass) fall back to local parsing.  The transport outcome of the
remote call is a parameter, covering every gateway behaviour. -/
def checkPlate (t : Transport) (timeoutSecs : Nat) (s : String) :
    Except TNKBErr VehicleInfo := do
  let normalized ← normalizePlate s
  let (region_code, digits, _letters) ← parsePlate normalized
  match callApi t timeoutSecs with
  | Except.ok payload => Except.ok (buildVehicleInfo payload normalized)
  | Except.error _ => Except.ok (parseLocally normalized region_code digits)

/-- TNKBClient.bulk_check: per plate, check_plate with that call's transport
outcome; every TNKBError is caught and replaced by the invalid placeholder. -/
def bulk_check (gw : String → Transport) (timeoutSecs : Nat)
    (plates : List String) : List VehicleInfo :=
  plates.map (fun plate =>
    match checkPlate (gw plate) timeoutSecs plate with
    | Except.ok vi => vi
    | Except.error e => createInvalidVehicle plate (errMsg e))

/-- A Python runtime value, as far as __init__ manipulates them. -/
inductive PyVal where
  | int (n : Int)
  | bool (b : Bool)
  | str (s : String)
  | noneVal
deriving DecidableEq, Repr

/-- The exception __init__ can hit before any attribute logic runs. -/
inductive PyExc where
  | nameError (name : String)
deriving DecidableEq, Repr

/-- Python name resolution in a function body: a read of a name that is
neither a local, a global of the module nor a builtin raises NameError. -/
def lookupName (env : List (String × PyVal)) (n : String) : Except PyExc PyVal :=
  match env.find? (fun kv => kv.fst == n) with
  | some kv => Except.ok kv.snd
  | none => Except.error (.nameError n)

/-- TNKBClient.__init__, statement by statement up to its first read of an
undefined name.  Its local names are exactly the parameters; the body
assigns self.timeout and self.verify_ssl from bound locals and then
evaluates the unbound name api_key for the assignment self.api_key = api_key
(the parameter is named rapidapi_key).  The returned value would be the
attribute dictionary of the constructed client. -/
def tnkbClientInit (timeout : Int) (max_retries : Int) (verify_ssl : Bool)
    (rapidapi_key : Option String) : Except PyExc (List (String × PyVal)) := do
  let locals : List (String × PyVal) :=
    [("self", .noneVal), ("timeout", .int timeout),
     ("max_retries", .int max_retries), ("verify_ssl", .bool verify_ssl),
     ("rapidapi_key", match rapidapi_key with
       | some k => .str k
       | none => PyVal.noneVal)]
  let vt ← lookupName locals "timeout"
  let vv ← lookupName locals "verify_ssl"
  let vk ← lookupName locals "api_key"
  Except.ok [("timeout", vt), ("verify_ssl", vv), ("api_key", vk)]

/-! Character-level lemmas about the ASCII uppercase map. -/

theorem toNat_Char_ofNat_lt {n : Nat} (h : n < 55296) :
    (Char.ofNat n).toNat = n := by
  have hv : n.isValidChar := Or.inl h
  simp only [Char.ofNat, hv, dite_true, Char.ofNatAux, Char.toNat, UInt32.toNat]
  simp [BitVec.ofNatLt]

theorem toUpper_toNat (c : Char) :
    (Char.toUpper c).toNat =
      if 97 ≤ c.toNat ∧ c.toNat ≤ 122 then c.toNat - 32 else c.toNat := by
  unfold Char.toUpper
  split
  · next h =>
    rw [if_pos (by omega)]
    exact toNat_Char_ofNat_lt (by omega)
  · next h =>
    rw [if_neg (by omega)]

theorem toUpper_not_lower (c : Char) :
    ¬(97 ≤ (Char.toUpper c).toNat ∧ (Char.toUpper c).toNat ≤ 122) := by
  rw [toUpper_toNat]
  split <;> omega

theorem toUpper_eq_self_of_not_lower {c : Char}
    (h : ¬(97 ≤ c.toNat ∧ c.toNat ≤ 122)) : Char.toUpper c = c := by
  unfold Char.toUpper
  rw [if_neg (by omega)]

theorem toUpper_idem (c : Char) :
    Char.toUpper (Char.toUpper c) = Char.toUpper c :=
  toUpper_eq_self_of_not_lower (toUpper_not_lower c)

theorem isSp_toUpper (c : Char) : isSp (Char.toUpper c) = isSp c := by
  unfold isSp
  rw [toUpper_toNat]
  split
  · next h =>
    have h9 : ¬(c.toNat = 32 || c.toNat = 9 || c.toNat = 10 || c.toNat = 13 ||
        c.toNat = 11 || c.toNat = 12) = true := by
      simp only [Bool.or_eq_true, decide_eq_true_eq]
      omega
    have h8 : ¬(c.toNat - 32 = 32 || c.toNat - 32 = 9 || c.toNat - 32 = 10 ||
        c.toNat - 32 = 13 || c.toNat - 32 = 11 || c.toNat - 32 = 12) = true := by
      simp only [Bool.or_eq_true, decide_eq_true_eq]
      omega
    simp only [Bool.not_eq_true] at h9 h8
    rw [h9, h8]
  · rfl

theorem notSp_toUpper (c : Char) : notSp (Char.toUpper c) = notSp c := by
  unfold notSp
  rw [isSp_toUpper]

theorem toUpper_of_isUpperAZ {c : Char} (h : isUpperAZ c = true) :
    Char.toUpper c = c := by
  unfold isUpperAZ at h
  simp only [Bool.and_eq_true, decide_eq_true_eq] at h
  exact toUpper_eq_self_of_not_lower (by omega)

/-! Lemmas about word splitting and whitespace collapsing. -/

theorem takeWhile_eq_self_of_all {p : α → Bool} {l : List α}
    (h : l.all p) : l.takeWhile p = l := by
  induction l with
  | nil => rfl
  | cons x xs ih =>
    simp only [List.all_cons, Bool.and_eq_true] at h
    simp [List.takeWhile_cons, h.1, ih h.2]

theorem dropWhile_eq_nil_of_all {p : α → Bool} {l : List α}
    (h : l.all p) : l.dropWhile p = [] := by
  induction l with
  | nil => rfl
  | cons x xs ih =>
    simp only [List.all_cons, Bool.and_eq_true] at h
    simp [List.dropWhile_cons, h.1, ih h.2]

theorem takeWhile_append_of_all {p : α → Bool} {w : List α} (l : List α)
    (h : w.all p) : (w ++ l).takeWhile p = w ++ l.takeWhile p := by
  induction w with
  | nil => rfl
  | cons x xs ih =>
    simp only [List.all_cons, Bool.and_eq_true] at h
    simp [List.takeWhile_cons, h.1, ih h.2]

theorem dropWhile_append_of_all {p : α → Bool} {w : List α} (l : List α)
    (h : w.all p) : (w ++ l).dropWhile p = l.dropWhile p := by
  induction w with
  | nil => rfl
  | cons x xs ih =>
    simp only [List.all_cons, Bool.and_eq_true] at h
    simp [List.dropWhile_cons, h.1, ih h.2]

theorem wordsOf_good (cs : List Char) :
    ∀ w ∈ wordsOf cs, w ≠ [] ∧ w.all notSp := by
  induction cs using wordsOf.induct with
  | case1 => intro w hw; simp [wordsOf] at hw
  | case2 c cs hsp ih =>
    intro w hw
    rw [wordsOf, if_pos hsp] at hw
    exact ih w hw
  | case3 c cs hsp ih =>
    intro w hw
    rw [wordsOf, if_neg hsp, List.mem_cons] at hw
    rcases hw with hw | hw
    · subst hw
      refine ⟨by simp, ?_⟩
      simp only [List.all_cons, Bool.and_eq_true]
      constructor
      · simp only [notSp, Bool.not_eq_true']
        exact Bool.of_not_eq_true hsp
      · exact List.all_eq_true.mpr fun a ha => List.mem_takeWhile_imp ha
    · exact ih w hw

theorem wordsOf_nil : wordsOf [] = [] := by
  simp [wordsOf]

theorem wordsOfF_eq : ∀ (fuel : Nat) (cs : List Char), cs.length ≤ fuel →
    wordsOfF fuel cs = wordsOf cs := by
  intro fuel
  induction fuel with
  | zero =>
    intro cs h
    cases cs with
    | nil => exact wordsOf_nil.symm
    | cons c cs => simp at h
  | succ n ih =>
    intro cs h
    cases cs with
    | nil => exact wordsOf_nil.symm
    | cons c cs =>
      simp only [List.length_cons, Nat.succ_le_succ_iff] at h
      rw [wordsOfF, wordsOf]
      by_cases hsp : isSp c = true
      · rw [if_pos hsp, if_pos hsp, ih cs h]
      · rw [if_neg hsp, if_neg hsp,
          ih (cs.dropWhile notSp) (Nat.le_trans (length_dropWhile_le' notSp cs) h)]

theorem pyCollapseL_eq (cs : List Char) :
    pyCollapseL cs = joinWords (wordsOf cs) := by
  unfold pyCollapseL
  rw [wordsOfF_eq cs.length cs (Nat.le_refl _)]

theorem wordsOf_all_sp {cs : List Char} (h : cs.all isSp) : wordsOf cs = [] := by
  induction cs using wordsOf.induct with
  | case1 => exact wordsOf_nil
  | case2 c cs hsp ih =>
    simp only [List.all_cons, Bool.and_eq_true] at h
    rw [wordsOf, if_pos hsp]
    exact ih h.2
  | case3 c cs hsp ih =>
    simp only [List.all_cons, Bool.and_eq_true] at h
    exact absurd h.1 hsp

theorem wordsOf_joinWords (ws : List (List Char))
    (h : ∀ w ∈ ws, w ≠ [] ∧ w.all notSp) : wordsOf (joinWords ws) = ws := by
  induction ws with
  | nil => exact wordsOf_nil
  | cons w ws ih =>
    obtain ⟨hne, hall⟩ := h w (by simp)
    obtain ⟨c, w', rfl⟩ := List.exists_cons_of_ne_nil hne
    simp only [List.all_cons, Bool.and_eq_true] at hall
    cases ws with
    | nil =>
      show wordsOf (c :: w') = [c :: w']
      rw [wordsOf, if_neg (by simp [notSp] at hall; simp [hall.1])]
      rw [takeWhile_eq_self_of_all hall.2, dropWhile_eq_nil_of_all hall.2,
        wordsOf_nil]
    | cons w2 ws2 =>
      show wordsOf ((c :: w') ++ ' ' :: joinWords (w2 :: ws2)) = _
      rw [List.cons_append, wordsOf,
        if_neg (by simp [notSp] at hall; simp [hall.1])]
      rw [takeWhile_append_of_all _ hall.2, dropWhile_append_of_all _ hall.2]
      have hsp : notSp ' ' = false := by decide
      rw [List.takeWhile_cons_of_neg (by simp [hsp]),
        List.dropWhile_cons_of_neg (by simp [hsp]), List.append_nil]
      have : wordsOf (' ' :: joinWords (w2 :: ws2)) =
          wordsOf (joinWords (w2 :: ws2)) := by
        rw [wordsOf, if_pos (by decide)]
      rw [this, ih (fun w hw => h w (by simp [hw]))]

theorem joinWords_map_toUpper (ws : List (List Char)) :
    joinWords (ws.map (List.map Char.toUpper)) =
      (joinWords ws).map Char.toUpper := by
  induction ws with
  | nil => rfl
  | cons w ws ih =>
    cases ws with
    | nil => rfl
    | cons w2 ws2 =>
      show (w.map Char.toUpper) ++ ' ' :: joinWords ((w2 :: ws2).map _) = _
      rw [ih]
      show _ = (w ++ ' ' :: joinWords (w2 :: ws2)).map Char.toUpper
      rw [List.map_append, List.map_cons]
      rfl

theorem wordsOf_map_toUpper (cs : List Char) :
    wordsOf (cs.map Char.toUpper) =
      (wordsOf cs).map (List.map Char.toUpper) := by
  have hcomp : (fun c => notSp (Char.toUpper c)) = notSp := by
    funext c; exact notSp_toUpper c
  induction cs using wordsOf.induct with
  | case1 => simp [wordsOf_nil]
  | case2 c cs hsp ih =>
    rw [List.map_cons, wordsOf]
    rw [if_pos (by rw [isSp_toUpper]; exact hsp)]
    rw [ih, wordsOf, if_pos hsp]
  | case3 c cs hsp ih =>
    rw [List.map_cons, wordsOf]
    rw [if_neg (by rw [isSp_toUpper]; exact hsp)]
    rw [List.takeWhile_map, List.dropWhile_map]
    simp only [Function.comp_def, hcomp]
    rw [ih, wordsOf, if_neg hsp]
    rfl

theorem pyUpperL_idem (cs : List Char) : pyUpperL (pyUpperL cs) = pyUpperL cs := by
  unfold pyUpperL
  rw [List.map_map]
  exact List.map_congr_left fun c _ => toUpper_idem c

theorem pyUpperL_pyCollapseL (cs : List Char) :
    pyUpperL (pyCollapseL (pyUpperL cs)) = pyCollapseL (pyUpperL cs) := by
  rw [pyCollapseL_eq]
  unfold pyUpperL
  rw [← joinWords_map_toUpper, ← wordsOf_map_toUpper, List.map_map]
  have : (Char.toUpper ∘ Char.toUpper) = Char.toUpper := by
    funext c; exact toUpper_idem c
  rw [this]

theorem pyCollapseL_pyUpperL_idem (cs : List Char) :
    pyCollapseL (pyUpperL (pyCollapseL (pyUpperL cs))) =
      pyCollapseL (pyUpperL cs) := by
  rw [pyUpperL_pyCollapseL, pyCollapseL_eq, pyCollapseL_eq,
    wordsOf_joinWords _ (wordsOf_good (pyUpperL cs))]

/-! Lemmas about normalization, parsing and the orchestrator. -/

theorem plateMatch_nil : plateMatch [] = none := rfl

theorem pyCollapse_pyUpper_idem (s : String) :
    pyCollapse (pyUpper (pyCollapse (pyUpper s))) = pyCollapse (pyUpper s) := by
  show String.mk (pyCollapseL (pyUpperL (pyCollapseL (pyUpperL s.data)))) =
    String.mk (pyCollapseL (pyUpperL s.data))
  exact congrArg String.mk (pyCollapseL_pyUpperL_idem s.data)

theorem pyUpper_idem (s : String) : pyUpper (pyUpper s) = pyUpper s := by
  show String.mk (pyUpperL (pyUpperL s.data)) = String.mk (pyUpperL s.data)
  exact congrArg String.mk (pyUpperL_idem s.data)

theorem normalizePlate_eq (s : String) :
    normalizePlate s =
      if s = "" then
        Except.error (TNKBErr.invalidPlate "Plate number cannot be empty")
      else match validatePlateFormat (pyCollapse (pyUpper s)) with
        | Except.ok _ => Except.ok (pyCollapse (pyUpper s))
        | Except.error e => Except.error e := rfl

theorem validatePlateFormat_cases (s : String) :
    (∃ g, plateMatch s.data = some g ∧ validatePlateFormat s = Except.ok ()) ∨
    (plateMatch s.data = none ∧
      ∃ m, validatePlateFormat s = Except.error (TNKBErr.invalidPlate m)) := by
  unfold validatePlateFormat
  cases hm : plateMatch s.data with
  | some g => exact Or.inl ⟨g, rfl, rfl⟩
  | none => exact Or.inr ⟨rfl, _, rfl⟩

theorem normalize_ok_elim {s n : String} (h : normalizePlate s = Except.ok n) :
    n = pyCollapse (pyUpper s) ∧ ∃ g, plateMatch n.data = some g := by
  rw [normalizePlate_eq] at h
  by_cases hs : s = ""
  · rw [if_pos hs] at h
    exact absurd h (by simp)
  · rw [if_neg hs] at h
    rcases validatePlateFormat_cases (pyCollapse (pyUpper s)) with
      ⟨g, hm, hv⟩ | ⟨hm, m, hv⟩
    · rw [hv] at h
      simp only [Except.ok.injEq] at h
      exact ⟨h.symm, g, h ▸ hm⟩
    · rw [hv] at h
      exact absurd h (by simp)

theorem normalize_ok_intro {s : String} (hs : s ≠ "") {g}
    (hm : plateMatch (pyCollapse (pyUpper s)).data = some g) :
    normalizePlate s = Except.ok (pyCollapse (pyUpper s)) := by
  rw [normalizePlate_eq, if_neg hs]
  rcases validatePlateFormat_cases (pyCollapse (pyUpper s)) with
    ⟨g2, _, hv⟩ | ⟨hm2, m, hv⟩
  · rw [hv]
  · rw [hm2] at hm
    exact absurd hm (by simp)

theorem normalize_error_shape {s : String} {e : TNKBErr}
    (h : normalizePlate s = Except.error e) : ∃ m, e = TNKBErr.invalidPlate m := by
  rw [normalizePlate_eq] at h
  by_cases hs : s = ""
  · rw [if_pos hs] at h
    simp only [Except.error.injEq] at h
    exact ⟨_, h.symm⟩
  · rw [if_neg hs] at h
    rcases validatePlateFormat_cases (pyCollapse (pyUpper s)) with
      ⟨g, hm, hv⟩ | ⟨hm, m, hv⟩
    · rw [hv] at h
      exact absurd h (by simp)
    · rw [hv] at h
      simp only [Except.error.injEq] at h
      exact ⟨m, h.symm⟩

theorem collapse_upper_all_sp {s : String} (h : s.data.all isSp = true) :
    (pyCollapse (pyUpper s)).data = [] := by
  show pyCollapseL (pyUpperL s.data) = []
  rw [pyCollapseL_eq]
  have hall : (pyUpperL s.data).all isSp = true := by
    unfold pyUpperL
    rw [List.all_map]
    have : (isSp ∘ Char.toUpper) = isSp := by
      funext c; exact isSp_toUpper c
    rw [this]
    exact h
  rw [wordsOf_all_sp hall]
  rfl

theorem normalize_error_iff (s : String) :
    (∃ m, normalizePlate s = Except.error (TNKBErr.invalidPlate m)) ↔
      (s = "" ∨ s.data.all isSp = true ∨
        plateMatch (pyCollapse (pyUpper s)).data = none) := by
  constructor
  · intro ⟨m, h⟩
    rw [normalizePlate_eq] at h
    by_cases hs : s = ""
    · exact Or.inl hs
    · rw [if_neg hs] at h
      rcases validatePlateFormat_cases (pyCollapse (pyUpper s)) with
        ⟨g, hm, hv⟩ | ⟨hm, m2, hv⟩
      · rw [hv] at h
        exact absurd h (by simp)
      · exact Or.inr (Or.inr hm)
  · intro h
    rcases h with hs | hsp | hm
    · exact ⟨_, by rw [normalizePlate_eq, if_pos hs]⟩
    · by_cases hs : s = ""
      · exact ⟨_, by rw [normalizePlate_eq, if_pos hs]⟩
      · have hm : plateMatch (pyCollapse (pyUpper s)).data = none := by
          rw [collapse_upper_all_sp hsp]
          exact plateMatch_nil
        rcases validatePlateFormat_cases (pyCollapse (pyUpper s)) with
          ⟨g, hg, hv⟩ | ⟨_, m, hv⟩
        · rw [hm] at hg
          exact absurd hg (by simp)
        · exact ⟨m, by rw [normalizePlate_eq, if_neg hs, hv]⟩
    · by_cases hs : s = ""
      · exact ⟨_, by rw [normalizePlate_eq, if_pos hs]⟩
      · rcases validatePlateFormat_cases (pyCollapse (pyUpper s)) with
          ⟨g, hg, hv⟩ | ⟨_, m, hv⟩
        · rw [hm] at hg
          exact absurd hg (by simp)
        · exact ⟨m, by rw [normalizePlate_eq, if_neg hs, hv]⟩

theorem parsePlate_of_match {s : String} {L D S : List Char}
    (hm : plateMatch s.data = some (L, D, S)) :
    parsePlate s = Except.ok (⟨L⟩, ⟨D⟩, ⟨S⟩) := by
  unfold parsePlate
  rw [hm]

theorem optSp_decomp (l : List Char) :
    ∃ s, l = s ++ optSp l ∧ (s = [] ∨ ∃ c, isSp c = true ∧ s = [c]) := by
  cases l with
  | nil => exact ⟨[], rfl, Or.inl rfl⟩
  | cons c t =>
    by_cases h : isSp c = true
    · exact ⟨[c], by simp [optSp, h], Or.inr ⟨c, h, rfl⟩⟩
    · exact ⟨[], by simp [optSp, h], Or.inl rfl⟩

/-- Whole-string decomposition of a successful core match: the input is
exactly the three groups separated by at most one whitespace character
each, with the documented repetition bounds and character classes; nothing
precedes the first group and nothing follows the last. -/
theorem plateMatchCore_decomp {cs L D S : List Char}
    (h : plateMatchCore cs = some (L, D, S)) :
    ∃ s1 s2, (s1 = [] ∨ ∃ c, isSp c = true ∧ s1 = [c]) ∧
      (s2 = [] ∨ ∃ c, isSp c = true ∧ s2 = [c]) ∧
      cs = L ++ s1 ++ D ++ s2 ++ S ∧
      1 ≤ L.length ∧ L.length ≤ 2 ∧ L.all isUpperAZ = true ∧
      1 ≤ D.length ∧ D.length ≤ 4 ∧ D.all isDigitC = true ∧
      1 ≤ S.length ∧ S.length ≤ 3 ∧ S.all isUpperAZ = true := by
  unfold plateMatchCore at h
  simp only [] at h
  split at h
  · exact absurd h (by simp)
  · split at h
    · exact absurd h (by simp)
    · split at h
      · exact absurd h (by simp)
      · next hc1 hc2 hc3 =>
        simp only [Option.some.injEq, Prod.mk.injEq] at h
        obtain ⟨hL, hD, hS⟩ := h
        simp only [Bool.or_eq_true, decide_eq_true_eq, not_or,
          Bool.not_eq_true, Bool.not_eq_false', List.isEmpty_eq_true]
          at hc1 hc2 hc3
        obtain ⟨s1, hs1, hs1sh⟩ := optSp_decomp (cs.dropWhile isUpperAZ)
        obtain ⟨s2, hs2, hs2sh⟩ :=
          optSp_decomp ((optSp (cs.dropWhile isUpperAZ)).dropWhile isDigitC)
        refine ⟨s1, s2, hs1sh, hs2sh, ?_, ?_⟩
        · subst hL hD hS
          have e0 := (List.takeWhile_append_dropWhile isUpperAZ cs).symm
          have e1 := (List.takeWhile_append_dropWhile isDigitC
            (optSp (cs.dropWhile isUpperAZ))).symm
          have e2 := (List.takeWhile_append_dropWhile isUpperAZ
            (optSp ((optSp (cs.dropWhile isUpperAZ)).dropWhile isDigitC))).symm
          have hr5 : (optSp ((optSp (cs.dropWhile isUpperAZ)).dropWhile
              isDigitC)).dropWhile isUpperAZ = [] := by
            exact hc3.2
          rw [hr5, List.append_nil] at e2
          calc cs = cs.takeWhile isUpperAZ ++ cs.dropWhile isUpperAZ := e0
            _ = cs.takeWhile isUpperAZ ++
                (s1 ++ optSp (cs.dropWhile isUpperAZ)) := by rw [← hs1]
            _ = cs.takeWhile isUpperAZ ++ s1 ++
                ((optSp (cs.dropWhile isUpperAZ)).takeWhile isDigitC ++
                 (optSp (cs.dropWhile isUpperAZ)).dropWhile isDigitC) := by
                  rw [← e1, List.append_assoc]
            _ = cs.takeWhile isUpperAZ ++ s1 ++
                ((optSp (cs.dropWhile isUpperAZ)).takeWhile isDigitC ++
                 (s2 ++ optSp ((optSp (cs.dropWhile isUpperAZ)).dropWhile
                    isDigitC))) := by rw [← hs2]
            _ = _ := by rw [← e2]; simp [List.append_assoc]
        · subst hL hD hS
          refine ⟨by omega, by omega,
            List.all_eq_true.mpr fun a ha => List.mem_takeWhile_imp ha,
            by omega, by omega,
            List.all_eq_true.mpr fun a ha => List.mem_takeWhile_imp ha,
            by omega, by omega,
            List.all_eq_true.mpr fun a ha => List.mem_takeWhile_imp ha⟩

/-- A successful match is a successful core match of the string itself or,
when the string ends in a newline, of the string without it. -/
theorem plateMatch_elim {cs : List Char} {g}
    (h : plateMatch cs = some g) :
    plateMatchCore cs = some g ∨ plateMatchCore cs.dropLast = some g := by
  unfold plateMatch at h
  split at h
  · next h2 => exact Or.inl (h2.trans h)
  · split at h
    · split at h
      · exact Or.inr h
      · exact absurd h (by simp)
    · exact absurd h (by simp)

/-- The capture groups of any successful match lie in their character
classes. -/
theorem plateMatch_groups_classes {cs L D S : List Char}
    (h : plateMatch cs = some (L, D, S)) :
    L.all isUpperAZ = true ∧ D.all isDigitC = true ∧ S.all isUpperAZ = true := by
  rcases plateMatch_elim h with h | h <;>
    · obtain ⟨_, _, _, _, _, _, _, hL, _, _, hD, _, _, hS⟩ :=
        plateMatchCore_decomp h
      exact ⟨hL, hD, hS⟩

theorem pyUpper_of_all_upper {L : List Char} (h : L.all isUpperAZ = true) :
    pyUpper ⟨L⟩ = (⟨L⟩ : String) := by
  show String.mk (pyUpperL L) = String.mk L
  unfold pyUpperL
  rw [List.map_congr_left fun c hc =>
    toUpper_of_isUpperAZ (List.all_eq_true.mp h c hc), List.map_id']

theorem Except_bind_ok (a : α) (f : α → Except ε β) :
    (Except.ok a : Except ε α) >>= f = f a := rfl

theorem checkPlate_of_normalize_error {s : String} {e : TNKBErr}
    (h : normalizePlate s = Except.error e) (t : Transport) (tmo : Nat) :
    checkPlate t tmo s = Except.error e := by
  unfold checkPlate
  rw [h]
  rfl

theorem checkPlate_of_normalize_ok {s n : String} {L D S : List Char}
    (h : normalizePlate s = Except.ok n)
    (hm : plateMatch n.data = some (L, D, S)) (t : Transport) (tmo : Nat) :
    checkPlate t tmo s =
      match callApi t tmo with
      | Except.ok payload => Except.ok (buildVehicleInfo payload n)
      | Except.error _ => Except.ok (parseLocally n ⟨L⟩ ⟨D⟩) := by
  unfold checkPlate
  rw [h, Except_bind_ok, parsePlate_of_match hm, Except_bind_ok]

theorem pyUpper_no_lower (s : String) :
    ∀ c ∈ (pyUpper s).data, ¬(97 ≤ c.toNat ∧ c.toNat ≤ 122) := by
  intro c hc
  have hc2 : c ∈ List.map Char.toUpper s.data := hc
  obtain ⟨d, -, rfl⟩ := List.mem_map.mp hc2
  exact toUpper_not_lower d

/-- Any VehicleInfo successfully returned by check_plate has a plate number
that matched the pattern when it was built, and a region code free of ASCII
lowercase letters. -/
theorem checkPlate_ok_invariant {t : Transport} {tmo : Nat} {raw : String}
    {vi : VehicleInfo} (hvi : checkPlate t tmo raw = Except.ok vi) :
    (vi.is_valid = true → ∃ g, plateMatch vi.plate_number.data = some g) ∧
    (∀ c ∈ vi.region_code.data, ¬(97 ≤ c.toNat ∧ c.toNat ≤ 122)) := by
  cases hn : normalizePlate raw with
  | error e =>
    rw [checkPlate_of_normalize_error hn t tmo] at hvi
    exact absurd hvi (by simp)
  | ok n =>
    obtain ⟨-, ⟨L, D, S⟩, hm⟩ := normalize_ok_elim hn
    rw [checkPlate_of_normalize_ok hn hm t tmo] at hvi
    cases hc : callApi t tmo with
    | ok payload =>
      rw [hc] at hvi
      simp only [Except.ok.injEq] at hvi
      subst hvi
      exact ⟨fun _ => ⟨(L, D, S), hm⟩,
        pyUpper_no_lower (dictGet payload "region_code" "")⟩
    | error e =>
      rw [hc] at hvi
      simp only [Except.ok.injEq] at hvi
      subst hvi
      exact ⟨fun _ => ⟨(L, D, S), hm⟩, pyUpper_no_lower ⟨L⟩⟩

/-- C1: for every combination of constructor arguments, constructing a
TNKBClient raises NameError: the body of __init__ reads the undefined name
api_key (the parameter is named rapidapi_key), so no client instance is
ever constructed. -/
theorem tnkb_C1_init_always_NameError (timeout max_retries : Int)
    (verify_ssl : Bool) (rapidapi_key : Option String) :
    tnkbClientInit timeout max_retries verify_ssl rapidapi_key =
      Except.error (PyExc.nameError "api_key") := rfl

/-- C2: for every gateway behaviour, check_plate either returns a
VehicleInfo or fails with InvalidPlate; it fails exactly when
normalization rejects the input, with the very error normalization raised,
and every APIError outcome of the gateway is absorbed into a successful
result on well-formed input. -/
theorem tnkb_C2_checkPlate_only_invalidPlate (t : Transport) (tmo : Nat)
    (raw : String) :
    ((∃ vi, checkPlate t tmo raw = Except.ok vi) ↔
      (∃ n, normalizePlate raw = Except.ok n)) ∧
    (∀ e, checkPlate t tmo raw = Except.error e →
      normalizePlate raw = Except.error e ∧
        ∃ m, e = TNKBErr.invalidPlate m) := by
  cases hn : normalizePlate raw with
  | ok n =>
    obtain ⟨-, ⟨L, D, S⟩, hm⟩ := normalize_ok_elim hn
    have hch := checkPlate_of_normalize_ok hn hm t tmo
    constructor
    · constructor
      · intro _
        exact ⟨n, rfl⟩
      · intro _
        rw [hch]
        cases hc : callApi t tmo with
        | ok payload => exact ⟨_, rfl⟩
        | error e => exact ⟨_, rfl⟩
    · intro e he
      rw [hch] at he
      cases hc : callApi t tmo with
      | ok payload =>
        rw [hc] at he
        exact absurd he (by simp)
      | error e2 =>
        rw [hc] at he
        exact absurd he (by simp)
  | error e0 =>
    have hch := checkPlate_of_normalize_error hn t tmo
    constructor
    · constructor
      · intro ⟨vi, hvi⟩
        rw [hch] at hvi
        exact absurd hvi (by simp)
      · intro ⟨n, hn2⟩
        exact Except.noConfusion hn2
    · intro e he
      rw [hch] at he
      simp only [Except.error.injEq] at he
      subst he
      exact ⟨rfl, normalize_error_shape hn⟩

theorem tnkb_C2_witness :
    ∃ vi, checkPlate Transport.timeout 10 "B 1234 ABC" = Except.ok vi :=
  ((tnkb_C2_checkPlate_only_invalidPlate Transport.timeout 10
    "B 1234 ABC").1).mpr ⟨"B 1234 ABC", rfl⟩

/-- C3 counterexample: on the input b1234abc, normalization and parsing both
succeed, yet validate_plate returns false, because the code checks the raw
string against the pattern without normalizing it first. -/
theorem tnkb_C3_counterexample :
    validate_plate "b1234abc" = Except.ok false ∧
    normalizePlate "b1234abc" = Except.ok "B1234ABC" ∧
    parsePlate "B1234ABC" = Except.ok ("B", "1234", "ABC") :=
  ⟨rfl, rfl, rfl⟩

/-- C3 (amended): validate_plate returns true iff the raw input itself
matches the canonical pattern, with no normalization applied first; the
InvalidPlate failure of the format check is swallowed into false and no
exception is ever surfaced. -/
theorem tnkb_C3_validate_raw_only (raw : String) :
    validate_plate raw = Except.ok ((plateMatch raw.data).isSome) := by
  unfold validate_plate validatePlateFormat
  cases hm : plateMatch raw.data with
  | some g => rfl
  | none => rfl

/-- C4 counterexample: check_plate normalizes b1234abc to B1234ABC, not to
B 1234 ABC: whitespace collapsing never inserts separators that were not in
the input. -/
theorem tnkb_C4_counterexample :
    normalizePlate "b1234abc" = Except.ok "B1234ABC" ∧
    ("B1234ABC" : String) ≠ "B 1234 ABC" ∧
    (checkPlate Transport.timeout 10 "b1234abc").map
      (fun v => v.plate_number) = Except.ok "B1234ABC" :=
  ⟨rfl, by decide, rfl⟩

/-- C4 (amended): checkPlate("b1234abc") normalizes the input to B1234ABC,
extracts region code B, and resolves it to region name Jawa Barat with
province West Java. -/
theorem tnkb_C4_scenario :
    normalizePlate "b1234abc" = Except.ok "B1234ABC" ∧
    parsePlate "B1234ABC" = Except.ok ("B", "1234", "ABC") ∧
    regionLookup "B" = some { name := "Jawa Barat", province := "West Java" } ∧
    (checkPlate Transport.timeout 10 "b1234abc").map
      (fun v => (v.plate_number, v.region_code, v.region_name)) =
      Except.ok ("B1234ABC", "B", "Jawa Barat") :=
  ⟨rfl, rfl, rfl, rfl⟩

/-- C5: for every well-formed plate, whenever the gateway call fails with
APIError or any subclass, check_plate returns a valid VehicleInfo built by
local parsing: plate number equal to the normalized input, region name
resolved from the registry by the locally parsed region code with default
Unknown Region, vehicle type Car, and the local_parsing details payload. -/
theorem tnkb_C5_fallback (raw n rc d su : String) (t : Transport) (tmo : Nat)
    (e : ApiErr) (h : normalizePlate raw = Except.ok n)
    (hp : parsePlate n = Except.ok (rc, d, su))
    (he : callApi t tmo = Except.error e) :
    checkPlate t tmo raw = Except.ok
      { plate_number := n
        region_code := rc
        region_name := ((regionLookup rc).map (fun r => r.name)).getD
          "Unknown Region"
        vehicle_type := "Car"
        is_valid := true
        details := [("source", "local_parsing"), ("region_code", rc),
                    ("digits", d), ("note", "Parsed locally without API")] } := by
  obtain ⟨-, ⟨L, D, S⟩, hm⟩ := normalize_ok_elim h
  rw [parsePlate_of_match hm] at hp
  simp only [Except.ok.injEq, Prod.mk.injEq] at hp
  obtain ⟨h1, h2, h3⟩ := hp
  subst h1
  subst h2
  subst h3
  have hch : checkPlate t tmo raw = Except.ok (parseLocally n ⟨L⟩ ⟨D⟩) := by
    rw [checkPlate_of_normalize_ok h hm t tmo, he]
  rw [hch]
  simp only [parseLocally]
  rw [pyUpper_of_all_upper (plateMatch_groups_classes hm).1]

theorem tnkb_C5_witness :
    checkPlate Transport.timeout 10 "b1234abc" = Except.ok
      { plate_number := "B1234ABC"
        region_code := "B"
        region_name := ((regionLookup "B").map (fun r => r.name)).getD
          "Unknown Region"
        vehicle_type := "Car"
        is_valid := true
        details := [("source", "local_parsing"), ("region_code", "B"),
                    ("digits", "1234"),
                    ("note", "Parsed locally without API")] } :=
  tnkb_C5_fallback "b1234abc" "B1234ABC" "B" "1234" "ABC" Transport.timeout 10
    (ApiErr.timeoutError "API request timeout after 10s") rfl rfl rfl

/-- C6 counterexample: on an API success whose payload has no region code,
check_plate returns a VehicleInfo with isValid true and an empty region
code, so an empty region code is not confined to invalid entries. -/
theorem tnkb_C6_counterexample :
    (checkPlate (Transport.body true Option.none []) 10 "B1234ABC").map
      (fun v => (v.is_valid, v.region_code)) = Except.ok (true, "") := rfl

/-- C6 (amended): every VehicleInfo produced by check_plate or bulk_check
satisfies: isValid implies the plate number matched the canonical pattern
at construction time, and the region code contains no ASCII lowercase
letter (it is uppercase or empty); an empty region code can, however,
accompany a valid entry when the API payload's region code is empty or
missing. -/
theorem tnkb_C6_invariant :
    (∀ t tmo raw vi, checkPlate t tmo raw = Except.ok vi →
      (vi.is_valid = true → ∃ g, plateMatch vi.plate_number.data = some g) ∧
      (∀ c ∈ vi.region_code.data, ¬(97 ≤ c.toNat ∧ c.toNat ≤ 122))) ∧
    (∀ gw tmo plates vi, vi ∈ bulk_check gw tmo plates →
      (vi.is_valid = true → ∃ g, plateMatch vi.plate_number.data = some g) ∧
      (∀ c ∈ vi.region_code.data, ¬(97 ≤ c.toNat ∧ c.toNat ≤ 122))) := by
  constructor
  · intro t tmo raw vi hvi
    exact checkPlate_ok_invariant hvi
  · intro gw tmo plates vi hvi
    simp only [bulk_check, List.mem_map] at hvi
    obtain ⟨p, -, hp⟩ := hvi
    cases hcp : checkPlate (gw p) tmo p with
    | ok vi2 =>
      rw [hcp] at hp
      subst hp
      exact checkPlate_ok_invariant hcp
    | error e =>
      rw [hcp] at hp
      subst hp
      refine ⟨fun hval => absurd hval (by simp [createInvalidVehicle]), ?_⟩
      intro c hc
      simp [createInvalidVehicle] at hc

theorem tnkb_C6_witness :
    ∃ g, plateMatch ("AB 12 X" : String).data = some g :=
  (tnkb_C6_invariant.1 Transport.timeout 10 "AB 12 X"
    { plate_number := "AB 12 X"
      region_code := "AB"
      region_name := "Padang"
      vehicle_type := "Car"
      is_valid := true
      details := [("source", "local_parsing"), ("region_code", "AB"),
                  ("digits", "12"), ("note", "Parsed locally without API")] }
    rfl).1 rfl

/-- C7: bulk_check returns one output per input, in order; an item on which
check_plate fails with any TNKB-family error yields the invalid placeholder
carrying the error message, instead of propagating the error. -/
theorem tnkb_C7_bulk (gw : String → Transport) (tmo : Nat)
    (plates : List String) :
    (bulk_check gw tmo plates).length = plates.length ∧
    ∀ (i : Nat) (p : String), plates[i]? = some p →
      (∀ vi, checkPlate (gw p) tmo p = Except.ok vi →
        (bulk_check gw tmo plates)[i]? = some vi) ∧
      (∀ e, checkPlate (gw p) tmo p = Except.error e →
        (bulk_check gw tmo plates)[i]? = some
          { plate_number := p, region_code := "", region_name := "Unknown",
            vehicle_type := "Unknown", is_valid := false,
            details := [("error", errMsg e)] }) := by
  refine ⟨by simp [bulk_check], ?_⟩
  intro i p hip
  have hmap : (bulk_check gw tmo plates)[i]? =
      some (match checkPlate (gw p) tmo p with
        | Except.ok vi => vi
        | Except.error e => createInvalidVehicle p (errMsg e)) := by
    unfold bulk_check
    rw [List.getElem?_map, hip]
    rfl
  constructor
  · intro vi hvi
    rw [hmap, hvi]
  · intro e he
    rw [hmap, he]
    rfl

theorem tnkb_C7_witness :
    (bulk_check (fun _ => Transport.timeout) 10
      ["B 1234 ABC", "INVALID"]).length = 2 ∧
    (bulk_check (fun _ => Transport.timeout) 10
      ["B 1234 ABC", "INVALID"])[1]? =
      some { plate_number := "INVALID", region_code := "",
             region_name := "Unknown", vehicle_type := "Unknown",
             is_valid := false,
             details := [("error",
               errMsg (TNKBErr.invalidPlate
                 ("Invalid plate format: INVALID. Expected format: " ++
                  "[A-Z] [1-4 DIGITS] [A-Z] (e.g., B 1234 ABC)")))] } := by
  have h := tnkb_C7_bulk (fun _ => Transport.timeout) 10
    ["B 1234 ABC", "INVALID"]
  exact ⟨h.1, ((h.2 1 "INVALID" rfl).2 _ rfl)⟩

/-- C8: normalization fails with InvalidPlate exactly when the input is
empty or whitespace-only, or its uppercased whitespace-collapsed form does
not match the anchored plate pattern; and any successful core match
decomposes the whole string into the three groups with at most one
whitespace separator on each side, leaving no unmatched characters. -/
theorem tnkb_C8_normalize_reject :
    (∀ s : String,
      (∃ m, normalizePlate s = Except.error (TNKBErr.invalidPlate m)) ↔
        (s = "" ∨ s.data.all isSp = true ∨
          plateMatch (pyCollapse (pyUpper s)).data = none)) ∧
    (∀ cs L D S, plateMatchCore cs = some (L, D, S) →
      ∃ s1 s2, (s1 = [] ∨ ∃ c, isSp c = true ∧ s1 = [c]) ∧
        (s2 = [] ∨ ∃ c, isSp c = true ∧ s2 = [c]) ∧
        cs = L ++ s1 ++ D ++ s2 ++ S) := by
  refine ⟨normalize_error_iff, ?_⟩
  intro cs L D S h
  obtain ⟨s1, s2, h1, h2, h3, -⟩ := plateMatchCore_decomp h
  exact ⟨s1, s2, h1, h2, h3⟩

theorem tnkb_C8_witness :
    ∃ m, normalizePlate "" = Except.error (TNKBErr.invalidPlate m) :=
  (tnkb_C8_normalize_reject.1 "").mpr (Or.inl rfl)

/-- C9: normalization is idempotent: whenever it succeeds, running it again
on its own output returns that output unchanged. -/
theorem tnkb_C9_normalize_idempotent (x y : String)
    (h : normalizePlate x = Except.ok y) : normalizePlate y = Except.ok y := by
  obtain ⟨hy, ⟨L, D, S⟩, hm⟩ := normalize_ok_elim h
  subst hy
  have hne : pyCollapse (pyUpper x) ≠ "" := by
    intro he
    rw [he] at hm
    have hnil : plateMatch (("" : String)).data = none := plateMatch_nil
    rw [hnil] at hm
    exact Option.noConfusion hm
  rw [normalizePlate_eq, if_neg hne, pyCollapse_pyUpper_idem x]
  rcases validatePlateFormat_cases (pyCollapse (pyUpper x)) with
    ⟨g, -, hv⟩ | ⟨hmn, -, -⟩
  · rw [hv]
  · rw [hmn] at hm
    exact Option.noConfusion hm

theorem tnkb_C9_witness :
    normalizePlate "B 1234 ABC" = Except.ok "B 1234 ABC" :=
  tnkb_C9_normalize_idempotent "b 1234 abc" "B 1234 ABC" rfl

/-- C10: get_region_info uppercases the code before the lookup, so a code
and its uppercased form resolve to the identical record; a successful
lookup returns an entry of the registry keyed by the uppercased code, and
when no registry key equals the uppercased code the result is None, never
an error. -/
theorem tnkb_C10_region_lookup (code : String) :
    get_region_info code = get_region_info (pyUpper code) ∧
    (∀ r, get_region_info code = some r → (pyUpper code, r) ∈ REGION_CODES) ∧
    ((∀ kv ∈ REGION_CODES, kv.fst ≠ pyUpper code) →
      get_region_info code = none) := by
  refine ⟨?_, ?_, ?_⟩
  · unfold get_region_info
    rw [pyUpper_idem]
  · intro r hr
    unfold get_region_info regionLookup at hr
    cases hf : REGION_CODES.find? (fun kv => kv.fst == pyUpper code) with
    | none =>
      rw [hf] at hr
      exact Option.noConfusion hr
    | some kv =>
      rw [hf] at hr
      simp only [Option.map_some', Option.some.injEq] at hr
      have hk : kv.fst = pyUpper code := by
        have hpa := List.find?_some hf
        simpa using hpa
      have hmem := List.mem_of_find?_eq_some hf
      rw [← hk, ← hr]
      simpa using hmem
  · intro hall
    unfold get_region_info regionLookup
    rw [List.find?_eq_none.mpr ?_]
    · rfl
    · intro kv hkv
      simp only [beq_iff_eq]
      exact hall kv hkv

theorem tnkb_C10_witness :
    get_region_info "b" = get_region_info (pyUpper "b") :=
  (tnkb_C10_region_lookup "b").1

end TNKB
